import Mathlib

/-!
# Verification of the print-engine layout / serial / template pipeline

Shallow embedding of the render core of the `print-engine` repository:
the serial generator, the page/slot raster layout, the exact_mm horizontal
placement rule, the render-mode normalization, the per-letter font sizes,
the template-id hashing, font-family resolution, the glyph outline engine,
and the per-slot canvas clip discipline.

Millimeter/point quantities are modelled as exact rationals (`ℚ`); Python
floats are treated as exact arithmetic on the rational values the claims
mention.  Fallible code returns `Except String` mirroring `raise ValueError`.
-/

namespace PrintEngine

/-- Modelled from the spec: `app/utils/units.py` is imported by the writer but
is absent from the source tree.  Spec §4.1: `POINTS_PER_MM = 72/25.4`. -/
def POINTS_PER_MM : ℚ := 72 / (254 / 10)

/-- Modelled from the spec: `mm_to_pt(mm) = mm * POINTS_PER_MM` (spec §4.1). -/
def mm_to_pt (mm : ℚ) : ℚ := mm * POINTS_PER_MM

/-! ## Serial generator (`pdf_writer._parse_series_start`, `_series_value`) -/

/-- The Unicode decimal-digit runs (category Nd, as compiled into CPython's
`unicodedata`): each entry is the code point of a digit of value 0, the nine
code points that follow it having values 1..9.  Python's `\d` in a `str`
pattern matches exactly these characters, and `int()` values each by its
decimal digit value. -/
def pyDigitRuns : List Nat :=
  [0x30, 0x660, 0x6f0, 0x7c0, 0x966, 0x9e6, 0xa66, 0xae6,
   0xb66, 0xbe6, 0xc66, 0xce6, 0xd66, 0xde6, 0xe50, 0xed0,
   0xf20, 0x1040, 0x1090, 0x17e0, 0x1810, 0x1946, 0x19d0, 0x1a80,
   0x1a90, 0x1b50, 0x1bb0, 0x1c40, 0x1c50, 0xa620, 0xa8d0, 0xa900,
   0xa9d0, 0xa9f0, 0xaa50, 0xabf0, 0xff10, 0x104a0, 0x10d30, 0x11066,
   0x110f0, 0x11136, 0x111d0, 0x112f0, 0x11450, 0x114d0, 0x11650, 0x116c0,
   0x11730, 0x118e0, 0x11950, 0x11c50, 0x11d50, 0x11da0, 0x16a60, 0x16ac0,
   0x16b50, 0x1d7ce, 0x1d7d8, 0x1d7e2, 0x1d7ec, 0x1d7f6, 0x1e140, 0x1e2f0,
   0x1e950, 0x1fbf0]

/-- Model of Python `\d` for `str` patterns: a Unicode decimal digit
(category Nd). -/
def pyIsDigit (c : Char) : Bool :=
  pyDigitRuns.any (fun s => s ≤ c.toNat && c.toNat < s + 10)

/-- The decimal value of a Unicode decimal digit, as `int()` values it
(0 for a non-digit, which the parser never feeds it). -/
def pyDigitVal (c : Char) : Nat :=
  match pyDigitRuns.find? (fun s => s ≤ c.toNat && c.toNat < s + 10) with
  | some s => c.toNat - s
  | none => 0

/-- Value of a decimal digit string, as Python `int(number_part)` computes it
for a string of Unicode decimal digits. -/
def digitsToNat (l : List Char) : Nat := l.foldl (fun a c => a * 10 + pyDigitVal c) 0

/-- The decimal digit characters, as produced by Python `str` of a digit. -/
def decDigitChar (n : Nat) : Char :=
  match n with
  | 0 => '0' | 1 => '1' | 2 => '2' | 3 => '3' | 4 => '4'
  | 5 => '5' | 6 => '6' | 7 => '7' | 8 => '8' | _ => '9'

/-- Modelled from the spec: Python `str(n)` for a non-negative integer
(decimal representation, most significant digit first, no sign, no padding).
`str` is standard-library behavior referenced by §4.6's
`prefix + str(base + i).zero_padded_to(width)`. -/
def natToDec (n : Nat) : List Char :=
  if _h : n < 10 then [decDigitChar n]
  else natToDec (n / 10) ++ [decDigitChar (n % 10)]
  decreasing_by exact Nat.div_lt_self (by omega) (by omega)

/-- Python `str.zfill(width)` for a digit string (no sign handling needed:
the padded value is always non-negative). -/
def zfill (width : Nat) (s : List Char) : List Char :=
  List.replicate (width - s.length) '0' ++ s

/-- The final-newline tolerance of Python's `$` anchor: outside MULTILINE
mode, `$` matches at the end of the string and also just before one newline
at the very end, so `re.search(r"(\d+)$", s)` may find a run ending
immediately before a single final `'\n'`. -/
def dropFinalNewline (s : List Char) : List Char :=
  match s.getLast? with
  | some c => if c = '\n' then s.dropLast else s
  | none => s

/-- The digit-run split of the `$`-anchored portion: the maximal trailing
run of Unicode decimal digits is the number part, everything before it the
literal prefix; no run is the fatal `ValueError`. -/
def parseBody (body : List Char) : Except String (List Char × Nat × Nat) :=
  let run := (body.reverse.takeWhile pyIsDigit).reverse
  if run.isEmpty then .error "Series must end with a numeric part"
  else .ok (body.take (body.length - run.length), digitsToNat run, run.length)

/-- `_parse_series_start` (`pdf_writer.py:212-220`): `re.search(r"(\d+)$", s)`
finds the maximal trailing run of Unicode decimal digits, where `$` also
matches just before one newline at the very end of the string (so
`"AB007\n"` parses as prefix `"AB"`, base 7, width 3, the newline belonging
to neither prefix nor number); everything before the run is the literal
prefix.  No such run ⇒ `ValueError`. -/
def parseSeriesStart (s : List Char) : Except String (List Char × Nat × Nat) :=
  parseBody (dropFinalNewline s)

/-- `_series_value` (`pdf_writer.py:223-225`):
`f"{prefix}{str(base + i).zfill(width)}"`. -/
def seriesValue (pre : List Char) (base width i : Nat) : List Char :=
  pre ++ zfill width (natToDec (base + i))

/-! ## Page / slot raster layout (`pdf_writer.write_final_pdf` main loop) -/

def OBJECTS_PER_PAGE : Nat := 4

/-- `total_pages = (count + (OBJECTS_PER_PAGE - 1)) // OBJECTS_PER_PAGE`
(`pdf_writer.py:384`). -/
def totalPages (count : Nat) : Nat :=
  (count + (OBJECTS_PER_PAGE - 1)) / OBJECTS_PER_PAGE

/-- The body of the slot loop threading `serial_index`
(`pdf_writer.py:390-409, 556-557`): a slot is left blank (`continue`) when
`serial_index >= count`; otherwise it is filled with the current serial
index, which is then incremented. -/
def processSlots (count : Nat) : List (Nat × Nat) → Nat → List ((Nat × Nat) × Option Nat)
  | [], _ => []
  | slot :: rest, serialIndex =>
    if count ≤ serialIndex then (slot, none) :: processSlots count rest serialIndex
    else (slot, some serialIndex) :: processSlots count rest (serialIndex + 1)

/-- `for _page in range(total_pages): for slot_index in range(OBJECTS_PER_PAGE)`:
the fixed raster order of slot visits. -/
def slotOrder (count : Nat) : List (Nat × Nat) :=
  (List.range (totalPages count)).flatMap
    (fun p => (List.range OBJECTS_PER_PAGE).map (fun s => (p, s)))

/-- Which serial (if any) lands in each visited slot, in visit order. -/
def renderTrace (count : Nat) : List ((Nat × Nat) × Option Nat) :=
  processSlots count (slotOrder count) 0

/-- The raster/fill behavior claimed for the main loop: `ceil(count/4)` pages
(characterized by `count ≤ 4·pages < count + 4`), slots visited in raster
order, the `g`-th visited slot being page `g/4`, slot `g%4`, filled with the
`g`-th serial exactly when `g < count` and left blank otherwise. -/
def rasterSpec (count : Nat) : Prop :=
  count ≤ totalPages count * OBJECTS_PER_PAGE
  ∧ totalPages count * OBJECTS_PER_PAGE < count + OBJECTS_PER_PAGE
  ∧ (renderTrace count).length = totalPages count * OBJECTS_PER_PAGE
  ∧ ∀ g : Nat,
      (renderTrace count)[g]?
        = if g < totalPages count * OBJECTS_PER_PAGE then
            some ((g / OBJECTS_PER_PAGE, g % OBJECTS_PER_PAGE),
                  if g < count then some g else none)
          else none

/-! ## Python string helpers -/

/-- Modelled from the spec's use of Python string handling: lowercase one
ASCII character, as `str.lower` does on the ASCII names the code compares. -/
def pyLowerChar (c : Char) : Char :=
  if 65 ≤ c.toNat ∧ c.toNat ≤ 90 then Char.ofNat (c.toNat + 32) else c

/-- Model of Python `str.lower()`. -/
def pyLower (s : String) : String := ⟨s.data.map pyLowerChar⟩

/-- Model of Python `str.strip()`: drop leading and trailing whitespace. -/
def pyStrip (s : String) : String :=
  ⟨((s.data.dropWhile Char.isWhitespace).reverse.dropWhile Char.isWhitespace).reverse⟩

/-! ## exact_mm horizontal object placement (`pdf_writer.py:430-454`) -/

/-- The `object_mm` fields consulted by the horizontal-placement code.
`x_mm`/`x` are the two accepted offset keys; a missing key is `none`. -/
structure ObjectBoxCfg where
  x_mm : Option ℚ
  x : Option ℚ
  alignment : Option String

/-- The `base_x` computed from `alignment` in the non-zero-offset branch
(`pdf_writer.py:447-453`). -/
def alignedBase (alignment : String) (slot_x_pt slot_w_pt object_w_pt : ℚ) : ℚ :=
  if alignment = "left" then slot_x_pt
  else if alignment = "right" then slot_x_pt + slot_w_pt - object_w_pt
  else slot_x_pt + (slot_w_pt - object_w_pt) / 2

/-- `object_x_pt` in `exact_mm` mode (`pdf_writer.py:430-454`): the offset is
read from `x_mm`, falling back to key `x`; a literal offset of `0.0` takes the
absolute branch (which nevertheless consults `alignment == "right"`), any
other case takes the alignment-plus-offset branch. -/
def objectXPtExact (cfg : ObjectBoxCfg) (slot_x_pt slot_w_pt page_w_pt object_w_pt : ℚ) : ℚ :=
  let xMm : Option ℚ := match cfg.x_mm with | some v => some v | none => cfg.x
  let xOffsetPt : ℚ := match xMm with | some v => mm_to_pt v | none => 0
  let alignment : String := pyLower (pyStrip (cfg.alignment.getD "center"))
  match xMm with
  | some v =>
    if v = 0 then
      if alignment = "right" then ((0 : ℚ) + page_w_pt) - object_w_pt
      else (0 : ℚ)
    else alignedBase alignment slot_x_pt slot_w_pt object_w_pt + xOffsetPt
  | none => alignedBase alignment slot_x_pt slot_w_pt object_w_pt + xOffsetPt

/-! ## Render-mode normalization (`render.py:19-26`, `pdf_writer.py:273,366`) -/

/-- `render_job`'s mode normalization (`render.py:19-26`). -/
def normalizeRenderMode (renderMode : Option String) : String :=
  let rawMode := pyStrip (renderMode.getD "")
  if rawMode = "preview" ∨ rawMode = "print_authoritative" then "exact_mm"
  else if rawMode = "deterministic_outlined" ∨ rawMode = "deterministic_outlined_4up" then "exact_mm"
  else if rawMode = "" then "exact_mm"
  else rawMode

/-- The mode string recomputed inside `write_final_pdf`
(`pdf_writer.py:273,366`): `str(render_mode or "").strip() or "legacy"`. -/
def writerMode (renderMode : String) : String :=
  if pyStrip renderMode = "" then "legacy" else pyStrip renderMode

/-- Slot height in points (`pdf_writer.py:378-381`): `exact_mm` subtracts the
inter-slot cut margins from the usable page height, `legacy` divides the page
into four equal bands. -/
def slotHeightPt (mode : String) (page_h_pt cut_margin_pt : ℚ) : ℚ :=
  if mode = "exact_mm" then
    (page_h_pt - ((OBJECTS_PER_PAGE - 1 : Nat) * cut_margin_pt)) / (OBJECTS_PER_PAGE : Nat)
  else page_h_pt / (OBJECTS_PER_PAGE : Nat)

/-! ## Per-letter font sizes (`pdf_writer.py:310-322, 576-583`) -/

/-- A raw entry of `series.per_letter_font_size_mm`: either a value `float(v)`
accepts, or one it rejects with `TypeError`/`ValueError`. -/
inductive RawSize where
  | num (q : ℚ)
  | nonNum
deriving DecidableEq, Repr

/-- The cleaning loop (`pdf_writer.py:315-322`): entries `float` rejects are
skipped, and only strictly positive values are appended — the kept values are
compacted, preserving order. -/
def cleanPerLetter (raw : List RawSize) : List ℚ :=
  raw.filterMap (fun e => match e with
    | .num q => if 0 < q then some q else none
    | .nonNum => none)

/-- The per-glyph size selection (`pdf_writer.py:578`):
`per_letter_sizes_mm[i] if per_letter_sizes_mm and i < len(per_letter_sizes_mm)
else font_size_mm`, where `per_letter_sizes_mm` is the cleaned list (or `None`
when the field was absent). -/
def glyphSizeMm (perLetter : Option (List RawSize)) (fontSizeMm : ℚ) (i : Nat) : ℚ :=
  match perLetter with
  | none => fontSizeMm
  | some raw =>
    let clean := cleanPerLetter raw
    if h : i < clean.length then clean.get ⟨i, h⟩ else fontSizeMm

/-- The per-glyph size selection as the spec's words describe it (for
refutation): honor `per_letter_font_size_mm[i]` when that entry exists and is
positive, else `font_size_mm`. -/
def glyphSizeMmSpecClaim (perLetter : Option (List RawSize)) (fontSizeMm : ℚ) (i : Nat) : ℚ :=
  match perLetter with
  | none => fontSizeMm
  | some raw =>
    match raw.get? i with
    | some (.num q) => if 0 < q then q else fontSizeMm
    | _ => fontSizeMm

/-! ## Font resolution (`font_registry.py:143-172`) -/

/-- `_PDF_CORE_FONTS` (`font_registry.py:14-29`). -/
def PDF_CORE_FONTS : List String :=
  ["Courier", "Courier-Bold", "Courier-Oblique", "Courier-BoldOblique",
   "Helvetica", "Helvetica-Bold", "Helvetica-Oblique", "Helvetica-BoldOblique",
   "Times-Roman", "Times-Bold", "Times-Italic", "Times-BoldItalic",
   "Symbol", "ZapfDingbats"]

/-- One discovered registry entry (`get_font_registry` output shape). -/
structure RegistryEntry where
  family : String
  source : String
  path : Option String
  embeddable : Bool

/-- `resolve_font_family` (`font_registry.py:143-172`).  The ambient renderer
state is passed explicitly: `registered` models
`pdfmetrics.getRegisteredFontNames()`, `registry` models
`get_font_registry()`, and `registerOk` models whether
`pdfmetrics.registerFont` succeeds (its `try/except` is the only
exception-capable call in the body, and it is caught). -/
def resolveFontFamily (registered : List String) (registry : List RegistryEntry)
    (registerOk : RegistryEntry → Bool) (requestedFamily : String) :
    String × String × Bool :=
  let requested := pyStrip requestedFamily
  if requested = "" then ("Helvetica", "pdf-core", false)
  else if requested ∈ registered ∨ requested ∈ PDF_CORE_FONTS then
    (requested,
     if requested ∈ PDF_CORE_FONTS then "pdf-core" else "registered",
     decide (requested ∉ PDF_CORE_FONTS))
  else
    match registry.find? (fun f => pyLower f.family = pyLower requested) with
    | none => ("Helvetica", "pdf-core", false)
    | some hit =>
      let path := pyStrip (hit.path.getD "")
      if path = "" ∨ hit.embeddable = false then
        ("Helvetica", if hit.source = "" then "unknown" else hit.source, false)
      else if registerOk hit then (hit.family, hit.source, true)
      else ("Helvetica", if hit.source = "" then "system" else hit.source, false)

/-! ## Per-slot canvas trace and clip discipline
(`pdf_writer.py:495-586`, `_draw_overlay` at `pdf_writer.py:102-204`) -/

/-- An axis-aligned clip rectangle `(x, y, w, h)` in points. -/
abbrev Rect : Type := ℚ × ℚ × ℚ × ℚ

/-- Who a draw call belongs to. -/
inductive Actor where
  | background
  | overlay
  | seriesText
deriving DecidableEq, Repr

/-- The canvas primitives the slot-rendering code issues, at the granularity
the clip claim needs: transform covers `translate`/`rotate`/`scale`,
draw covers `doForm`/`drawImage`/`drawText`. -/
inductive CanvasOp where
  | save
  | restore
  | clip (r : Rect)
  | transform
  | draw (a : Actor)
deriving DecidableEq, Repr

/-- An overlay as `_draw_overlay` dispatches on it: an SVG-reference overlay
(`type == "svg"` with an `svg_s3_key`, carrying `scale` and a rotation flag),
or a data-URL overlay with a present `data_url` (rotation flag, and whether
its mime is SVG). -/
inductive OverlayKind where
  | svgRef (scale : ℚ) (rotNonzero : Bool)
  | dataUrl (rotNonzero : Bool) (svgMime : Bool)
deriving DecidableEq, Repr

/-- Canvas ops issued by `_draw_overlay` (`pdf_writer.py:102-204`).
SVG-reference branch: early return when `scale <= 0`; else
`saveState; translate; translate; rotate?; scale; translate; doForm;
restoreState`.  Data-URL branch: `saveState; translate; rotate?; translate;`
then (SVG mime) `scale; doForm` or (image) `drawImage`; `restoreState`.
Neither branch establishes any clip. -/
def overlayOps : OverlayKind → List CanvasOp
  | .svgRef scale rot =>
    if scale ≤ 0 then []
    else [.save, .transform, .transform] ++ (if rot then [.transform] else [])
      ++ [.transform, .transform, .draw .overlay, .restore]
  | .dataUrl rot svgMime =>
    [.save, .transform] ++ (if rot then [.transform] else []) ++ [.transform]
      ++ (if svgMime then [.transform, .draw .overlay] else [.draw .overlay])
      ++ [.restore]

/-- Canvas ops for the background placement (`pdf_writer.py:495-523`):
save, clip to the slot rect (`exact_mm`) or the object rect (`legacy`),
the mode's transform stack, `doForm`, restore. -/
def bgOps (mode : String) (slotRect objRect : Rect) : List CanvasOp :=
  [.save, .clip (if mode = "exact_mm" then slotRect else objRect)]
    ++ (if mode = "exact_mm" then [.transform, .transform, .transform, .transform]
        else [.transform, .transform])
    ++ [.draw .background, .restore]

/-- Canvas ops for the serial text (`pdf_writer.py:565-586`): save, translate,
optional rotate, drawText, restore — the code's own comment: "no clip". -/
def seriesOps (rotNonzero : Bool) : List CanvasOp :=
  [.save, .transform] ++ (if rotNonzero then [.transform] else [])
    ++ [.draw .seriesText, .restore]

/-- The full canvas trace of one filled slot (`pdf_writer.py:495-586`):
background placement, then each overlay in list order, then the serial
text. -/
def slotOps (mode : String) (slotRect objRect : Rect) (overlays : List OverlayKind)
    (seriesRot : Bool) : List CanvasOp :=
  bgOps mode slotRect objRect ++ overlays.flatMap overlayOps ++ seriesOps seriesRot

/-- Does this overlay emit a draw call at all?  (`scale <= 0` SVG-reference
overlays return early.) -/
def overlayEmits : OverlayKind → Bool
  | .svgRef scale _ => decide (0 < scale)
  | .dataUrl _ _ => true

/-- Replay a canvas trace, tracking the active clip set (ReportLab clips
intersect and are undone by `restoreState`), and record the clip set in
force at each draw call. -/
def drawsWithClipsAux : List CanvasOp → List Rect → List (List Rect) →
    List (Actor × List Rect)
  | [], _, _ => []
  | .save :: rest, cur, stack => drawsWithClipsAux rest cur (cur :: stack)
  | .restore :: rest, cur, stack =>
    match stack with
    | [] => drawsWithClipsAux rest cur []
    | c :: s => drawsWithClipsAux rest c s
  | .clip r :: rest, cur, stack => drawsWithClipsAux rest (r :: cur) stack
  | .transform :: rest, cur, stack => drawsWithClipsAux rest cur stack
  | .draw a :: rest, cur, stack => (a, cur) :: drawsWithClipsAux rest cur stack

/-- The sequence of draw calls in a trace, each with its active clip set. -/
def drawsWithClips (ops : List CanvasOp) : List (Actor × List Rect) :=
  drawsWithClipsAux ops [] []

/-- The claim under test for C4: every overlay draw call happens with the
step-3 clip region among its active clips. -/
def overlaysInsideClip (ops : List CanvasOp) (clipRect : Rect) : Prop :=
  ∀ p ∈ drawsWithClips ops, p.1 = Actor.overlay → clipRect ∈ p.2

/-! ## Glyph outline engine (`outlined_text.py:60-205`) -/

/-- A recorded pen operation as produced by the (external) fontTools
`Qu2CuPen`/`RecordingPen` pipeline for one glyph: only line/cubic/close
primitives remain after quadratic-to-cubic conversion; `other` models the
loop's final `continue` branch for any unrecognized operation. -/
inductive PenOp where
  | moveTo (p : ℚ × ℚ)
  | lineTo (p : ℚ × ℚ)
  | curveTo (p1 p2 p3 : ℚ × ℚ)
  | closePath
  | other
deriving DecidableEq, Repr

/-- An emitted path operation in point space (`Op` in `outlined_text.py`). -/
inductive OutOp where
  | moveTo (x y : ℚ)
  | lineTo (x y : ℚ)
  | curveTo (x1 y1 x2 y2 x3 y3 : ℚ)
  | close
deriving DecidableEq, Repr

/-- The bounding-box dictionary returned by
`outline_text_ops_pt_with_metrics`. -/
structure BBox where
  min_x : ℚ
  min_y : ℚ
  max_x : ℚ
  max_y : ℚ
  w : ℚ
  h : ℚ
deriving DecidableEq, Repr

/-- The all-zero bounding box of the empty result
(`outlined_text.py:161-162`). -/
def zeroBBox : BBox := ⟨0, 0, 0, 0, 0, 0⟩

/-- The font-derived data the engine consumes, all supplied by the external
fontTools parser: units per em (`head`), the best cmap, per-glyph decomposed
cubic outlines (the `DecomposingRecordingPen` + `Qu2CuPen` output, with the
`glyf_table[name]`-falls-back-to-`.notdef` lookup already applied), advance
widths (`hmtx`, with the `(0, 0)` default), and horizontal kerning pairs
(value `0.0` when absent). -/
structure GlyphFont where
  unitsPerEm : ℚ
  cmap : Char → Option String
  outline : String → List PenOp
  advance : String → ℚ
  kern : String → String → ℚ

/-- Running min/max bounding box over accumulated points (`_acc_pt`), `none`
while no point has been accumulated (the code's `±inf` initial state). -/
def accPoint (bbox : Option (ℚ × ℚ × ℚ × ℚ)) (x y : ℚ) : Option (ℚ × ℚ × ℚ × ℚ) :=
  match bbox with
  | none => some (x, y, x, y)
  | some (a, b, c, d) => some (min a x, min b y, max c x, max d y)

/-- Emit one recorded pen op scaled by `scale` and offset by the running
cursor (`outlined_text.py:124-153`). -/
def emitPenOp (scale cursor : ℚ) (st : List OutOp × Option (ℚ × ℚ × ℚ × ℚ))
    (op : PenOp) : List OutOp × Option (ℚ × ℚ × ℚ × ℚ) :=
  match op with
  | .moveTo (x, y) =>
    let px := (cursor + x) * scale
    let py := y * scale
    (st.1 ++ [.moveTo px py], accPoint st.2 px py)
  | .lineTo (x, y) =>
    let px := (cursor + x) * scale
    let py := y * scale
    (st.1 ++ [.lineTo px py], accPoint st.2 px py)
  | .curveTo (x1, y1) (x2, y2) (x3, y3) =>
    let q1 := (cursor + x1) * scale
    let q2 := y1 * scale
    let q3 := (cursor + x2) * scale
    let q4 := y2 * scale
    let q5 := (cursor + x3) * scale
    let q6 := y3 * scale
    (st.1 ++ [.curveTo q1 q2 q3 q4 q5 q6],
     accPoint (accPoint (accPoint st.2 q1 q2) q3 q4) q5 q6)
  | .closePath => (st.1 ++ [.close], st.2)
  | .other => st

/-- The per-character loop state (`outlined_text.py:87-92`). -/
structure OutlineState where
  ops : List OutOp
  bbox : Option (ℚ × ℚ × ℚ × ℚ)
  advances : List ℚ
  cursor : ℚ
  prev : Option String

/-- One iteration of the character loop (`outlined_text.py:103-158`): cmap
lookup with `.notdef` fallback, kerning applied to the cursor before drawing,
the glyph's recorded ops emitted, the advance accumulated. -/
def processChar (font : GlyphFont) (scale : ℚ) (st : OutlineState) (ch : Char) :
    OutlineState :=
  let glyphName := (font.cmap ch).getD ".notdef"
  let cursor1 :=
    match st.prev with
    | some pg => st.cursor + font.kern pg glyphName
    | none => st.cursor
  let emitted := (font.outline glyphName).foldl (emitPenOp scale cursor1) (st.ops, st.bbox)
  { ops := emitted.1
    bbox := emitted.2
    advances := st.advances ++ [font.advance glyphName * scale]
    cursor := cursor1 + font.advance glyphName
    prev := some glyphName }

/-- Translate a raw op so the bbox minimum lands at `(0,0)` and then to the
caller's anchor (`outlined_text.py:166-191`). -/
def normOp (baseX baseY minX minY : ℚ) : OutOp → OutOp
  | .moveTo x y => .moveTo (baseX + (x - minX)) (baseY + (y - minY))
  | .lineTo x y => .lineTo (baseX + (x - minX)) (baseY + (y - minY))
  | .curveTo x1 y1 x2 y2 x3 y3 =>
    .curveTo (baseX + (x1 - minX)) (baseY + (y1 - minY))
      (baseX + (x2 - minX)) (baseY + (y2 - minY))
      (baseX + (x3 - minX)) (baseY + (y3 - minY))
  | .close => .close

/-- The point scale factor (`outlined_text.py:73`):
`scale = float(font_size_pt) / units_per_em`. -/
def outlineScale (font : GlyphFont) (fontSizePt : ℚ) : ℚ :=
  fontSizePt / font.unitsPerEm

/-- The engine body after the units-per-em check, at a given scale. -/
def outlineCore (font : GlyphFont) (scale : ℚ) (text : List Char)
    (xPt yPt : ℚ) : List OutOp × BBox × List ℚ :=
  let final := text.foldl (processChar font scale) ⟨[], none, [], 0, none⟩
  match final.bbox, final.ops.isEmpty with
  | some (minX, minY, maxX, maxY), false =>
    (final.ops.map (normOp xPt yPt minX minY),
     ⟨minX, minY, maxX, maxY, maxX - minX, maxY - minY⟩,
     final.advances)
  | _, _ => ([], zeroBBox, final.advances)

/-- `outline_text_ops_pt_with_metrics` (`outlined_text.py:60-205`):
fatal `INVALID_FONT_UNITS_PER_EM` when `units_per_em <= 0`; otherwise the
loop at `scale = font_size_pt / units_per_em`, returning the empty result
with a zero bounding box when no operation produced a point
(`if not raw_ops or min_x == float("inf")`). -/
def outlineTextOpsPtWithMetrics (font : GlyphFont) (text : List Char)
    (fontSizePt xPt yPt : ℚ) : Except String (List OutOp × BBox × List ℚ) :=
  if font.unitsPerEm ≤ 0 then .error "INVALID_FONT_UNITS_PER_EM"
  else .ok (outlineCore font (outlineScale font fontSizePt) text xPt yPt)

/-! ## Template id (`template.compute_template_id`, `utils/hash.sha256_hex`) -/

/-- A JSON value, the payload language of `compute_template_id`. -/
inductive Json where
  | null
  | bool (b : Bool)
  | num (q : ℚ)
  | str (s : String)
  | arr (xs : List Json)
  | obj (fields : List (String × Json))

/-- JSON string quoting (model of `json.dumps` string output; the payloads
the claims quantify over need no escape sequences). -/
def jsonQuote (s : String) : String := "\"" ++ s ++ "\""

/-- Ordering of serialized object fields by key. -/
def keyLe (a b : String × String) : Prop := a.1 ≤ b.1

/-- Strict key ordering, used to show the sorted field list is unique. -/
def keyLt (a b : String × String) : Prop := a.1 < b.1

instance : DecidableRel keyLe := fun a b => inferInstanceAs (Decidable (a.1 ≤ b.1))

instance : IsTotal (String × String) keyLe := ⟨fun a b => le_total a.1 b.1⟩

instance : IsTrans (String × String) keyLe := ⟨fun _ _ _ h1 h2 => le_trans h1 h2⟩

instance : IsAntisymm (String × String) keyLt :=
  ⟨fun _ _ h1 h2 => absurd (lt_trans h1 h2) (lt_irrefl _)⟩

/-- Sort serialized object fields by key, the model of
`json.dumps(..., sort_keys=True)`'s key ordering. -/
def sortPairs (l : List (String × String)) : List (String × String) :=
  List.insertionSort keyLe l

/-- Join already-serialized object fields with the compact separators
`(",", ":")`. -/
def joinFields (l : List (String × String)) : String :=
  String.intercalate "," (l.map (fun kv => jsonQuote kv.1 ++ ":" ++ kv.2))

/-- Join serialized array items with the compact item separator. -/
def joinItems (l : List String) : String := String.intercalate "," l

mutual

/-- Model of `json.dumps(value, sort_keys=True, separators=(",", ":"))`:
object keys sorted at every level, no incidental whitespace. -/
def serializeJson : Json → String
  | .null => "null"
  | .bool b => if b then "true" else "false"
  | .num q => toString q
  | .str s => jsonQuote s
  | .arr xs => "[" ++ joinItems (serializeList xs) ++ "]"
  | .obj fs => "\x7b" ++ joinFields (sortPairs (serializeFields fs)) ++ "\x7d"

/-- Serialize each array item. -/
def serializeList : List Json → List String
  | [] => []
  | x :: xs => serializeJson x :: serializeList xs

/-- Serialize each object field's value, keeping its key. -/
def serializeFields : List (String × Json) → List (String × String)
  | [] => []
  | (k, v) :: fs => (k, serializeJson v) :: serializeFields fs

end

/-- `compute_template_id` (`template.py:27-45`): build the payload dict with
its six fields (`custom_fonts or []` and `overlays or []` replace a missing
or empty list by `[]`), canonically serialize, and hash.  `sha256_hex`
(`utils/hash.py:5-8`) wraps the external `hashlib.sha256(...).hexdigest()`
and is modelled as an arbitrary pure function `hashFn`. -/
def computeTemplateId (hashFn : String → String) (svgHash : String)
    (objectMm : List (String × Json)) (series : List (String × Json))
    (customFonts : Option (List Json)) (overlays : Option (List Json))
    (renderMode : String) : String :=
  let payload : Json := .obj
    [("svg_hash", .str svgHash),
     ("object_mm", .obj objectMm),
     ("series", .obj series),
     ("custom_fonts", .arr (customFonts.getD [])),
     ("overlays", .arr (overlays.getD [])),
     ("render_mode", .str renderMode)]
  hashFn (serializeJson payload)

/-! ## Theorems -/

/-! ### Serial generator lemmas (C2) -/

theorem pyDigitVal_decDigitChar (n : Nat) (h : n < 10) : pyDigitVal (decDigitChar n) = n := by
  interval_cases n <;> decide

theorem pyIsDigit_decDigitChar (n : Nat) (h : n < 10) : pyIsDigit (decDigitChar n) = true := by
  interval_cases n <;> decide

theorem digitsToNat_append (l : List Char) (c : Char) :
    digitsToNat (l ++ [c]) = digitsToNat l * 10 + pyDigitVal c := by
  simp [digitsToNat, List.foldl_append]

theorem digitsToNat_natToDec (n : Nat) : digitsToNat (natToDec n) = n := by
  induction n using Nat.strong_induction_on with
  | _ n ih =>
    rw [natToDec]
    by_cases h : n < 10
    · simp [h, digitsToNat, pyDigitVal_decDigitChar n h]
    · simp only [h, dite_false, digitsToNat_append]
      rw [ih (n / 10) (Nat.div_lt_self (by omega) (by omega)),
        pyDigitVal_decDigitChar (n % 10) (by omega)]
      omega

theorem natToDec_ne_nil (n : Nat) : natToDec n ≠ [] := by
  rw [natToDec]
  by_cases h : n < 10 <;> simp [h]

theorem takeWhile_all_append (p : Char → Bool) (l₁ l₂ : List Char)
    (h : ∀ c ∈ l₁, p c = true) :
    (l₁ ++ l₂).takeWhile p = l₁ ++ l₂.takeWhile p := by
  induction l₁ with
  | nil => simp
  | cons c l ih =>
    simp [List.takeWhile_cons, h c (by simp), ih (fun x hx => h x (by simp [hx]))]

theorem digitsToNat_replicate_zero (k : Nat) (t : List Char) :
    digitsToNat (List.replicate k '0' ++ t) = digitsToNat t := by
  induction k with
  | zero => simp
  | succ n ih =>
    have h0 : pyDigitVal '0' = 0 := by decide
    have h : List.replicate (n + 1) '0' ++ t = '0' :: (List.replicate n '0' ++ t) := by
      simp [List.replicate_succ]
    rw [h]
    simpa [digitsToNat, h0] using ih

theorem digitsToNat_zfill (w : Nat) (t : List Char) :
    digitsToNat (zfill w t) = digitsToNat t :=
  digitsToNat_replicate_zero _ _

theorem zfill_length (w : Nat) (t : List Char) :
    (zfill w t).length = max w t.length := by
  simp [zfill]
  omega

theorem zfill_of_le (w : Nat) (t : List Char) (h : w ≤ t.length) :
    zfill w t = t := by
  simp [zfill, Nat.sub_eq_zero_of_le h]

theorem dropFinalNewline_concat_newline (s : List Char) :
    dropFinalNewline (s ++ [Char.ofNat 10]) = s := by
  simp [dropFinalNewline, List.getLast?_concat, List.dropLast_concat]

theorem dropFinalNewline_of_last_ne (s p : List Char) (c : Char)
    (hs : s = p ++ [c]) (hc : c ≠ Char.ofNat 10) :
    dropFinalNewline s = s := by
  subst hs
  simp [dropFinalNewline, List.getLast?_concat, hc]

theorem pyIsDigit_ne_newline (c : Char) (h : pyIsDigit c = true) : c ≠ Char.ofNat 10 := by
  intro he
  subst he
  exact absurd h (by decide)

theorem parseBody_of_split (pre run : List Char)
    (hrun : run ≠ [])
    (hdig : ∀ c ∈ run, pyIsDigit c = true)
    (hpre : pre = [] ∨ ∃ p c, pre = p ++ [c] ∧ pyIsDigit c = false) :
    parseBody (pre ++ run) = .ok (pre, digitsToNat run, run.length) := by
  have hrev : (pre ++ run).reverse = run.reverse ++ pre.reverse := by
    simp
  have htw : (run.reverse ++ pre.reverse).takeWhile pyIsDigit = run.reverse := by
    rw [takeWhile_all_append _ _ _ (fun c hc => hdig c (List.mem_reverse.mp hc))]
    rcases hpre with h | ⟨p, c, hpc, hcd⟩
    · simp [h]
    · subst hpc
      simp [List.takeWhile_cons, hcd]
  unfold parseBody
  rw [hrev, htw]
  simp only [List.reverse_reverse]
  rw [if_neg (by simpa [List.isEmpty_iff] using hrun)]
  congr 1
  have hlen : (pre ++ run).length - run.length = pre.length := by
    simp
  rw [hlen]
  simp [List.take_left]

theorem parseBody_no_run (s : List Char)
    (hs : s = [] ∨ ∃ p c, s = p ++ [c] ∧ pyIsDigit c = false) :
    parseBody s = .error "Series must end with a numeric part" := by
  unfold parseBody
  rcases hs with h | ⟨p, c, hpc, hcd⟩
  · simp [h]
  · subst hpc
    simp [List.takeWhile_cons, hcd]

theorem run_concat_digit_last (pre run : List Char) (hrun : run ≠ [])
    (hdig : ∀ c ∈ run, pyIsDigit c = true) :
    ∃ p c, pre ++ run = p ++ [c] ∧ pyIsDigit c = true := by
  refine ⟨pre ++ run.dropLast, run.getLast hrun, ?_, hdig _ (List.getLast_mem hrun)⟩
  rw [List.append_assoc, List.dropLast_append_getLast hrun]

theorem parse_of_split (pre run : List Char)
    (hrun : run ≠ [])
    (hdig : ∀ c ∈ run, pyIsDigit c = true)
    (hpre : pre = [] ∨ ∃ p c, pre = p ++ [c] ∧ pyIsDigit c = false) :
    parseSeriesStart (pre ++ run) = .ok (pre, digitsToNat run, run.length) := by
  obtain ⟨p, c, hs, hc⟩ := run_concat_digit_last pre run hrun hdig
  unfold parseSeriesStart
  rw [dropFinalNewline_of_last_ne _ p c hs (pyIsDigit_ne_newline c hc)]
  exact parseBody_of_split pre run hrun hdig hpre

theorem parse_of_split_newline (pre run : List Char)
    (hrun : run ≠ [])
    (hdig : ∀ c ∈ run, pyIsDigit c = true)
    (hpre : pre = [] ∨ ∃ p c, pre = p ++ [c] ∧ pyIsDigit c = false) :
    parseSeriesStart (pre ++ run ++ [Char.ofNat 10])
      = .ok (pre, digitsToNat run, run.length) := by
  unfold parseSeriesStart
  rw [dropFinalNewline_concat_newline]
  exact parseBody_of_split pre run hrun hdig hpre

theorem parse_no_run (s : List Char)
    (hs : s = [] ∨ ∃ p c, s = p ++ [c] ∧ pyIsDigit c = false ∧ c ≠ Char.ofNat 10) :
    parseSeriesStart s = .error "Series must end with a numeric part" := by
  unfold parseSeriesStart
  rcases hs with h | ⟨p, c, hpc, hcd, hcn⟩
  · subst h
    exact parseBody_no_run [] (Or.inl rfl)
  · rw [dropFinalNewline_of_last_ne s p c hpc hcn]
    exact parseBody_no_run s (Or.inr ⟨p, c, hpc, hcd⟩)

theorem parse_no_run_newline (s : List Char)
    (hs : s = [] ∨ ∃ p c, s = p ++ [c] ∧ pyIsDigit c = false) :
    parseSeriesStart (s ++ [Char.ofNat 10])
      = .error "Series must end with a numeric part" := by
  unfold parseSeriesStart
  rw [dropFinalNewline_concat_newline]
  exact parseBody_no_run s hs

/-- C2 counterexample: `"AB007\n"` does not end in a digit — its last
character is a newline — yet the code parses it as prefix `"AB"`, base 7,
width 3 instead of raising the claimed fatal input error (Python `$` matches
before one final newline); and `"A٧"` ends in no ASCII digit yet parses with
the Arabic-Indic digit seven as its numeric run (`\d` is Unicode-wide). -/
theorem series_trailing_newline_counterexample :
    parseSeriesStart ['A', 'B', '0', '0', '7', Char.ofNat 10]
      = .ok (['A', 'B'], 7, 3)
    ∧ pyIsDigit (Char.ofNat 10) = false
    ∧ parseSeriesStart ['A', '٧'] = .ok (['A'], 7, 1)
    ∧ Char.isDigit '٧' = false :=
  ⟨rfl, by decide, rfl, by decide⟩

/-- C2 amended: a start string whose `$`-anchored portion (the string minus
at most one final newline) ends in a run of Unicode decimal digits parses
into the verbatim prefix (embedded spaces preserved, the optional final
newline belonging to neither part), the run's integer value as base and the
run's length as width; the `i`-th serial value is
`prefix ++ zfill(width, str(base + i))`, whose numeric part still decodes to
`base + i` and has length `max width |str(base+i)|` (a value needing more
digits than `width` is emitted unpadded and untruncated, `zfill` being the
identity there); and a start string with no such digit run — even after
allowing for the optional final newline — is the fatal `ValueError`. -/
theorem series_generator_spec (pre run : List Char)
    (hrun : run ≠ [])
    (hdig : ∀ c ∈ run, pyIsDigit c = true)
    (hpre : pre = [] ∨ ∃ p c, pre = p ++ [c] ∧ pyIsDigit c = false) :
    parseSeriesStart (pre ++ run) = .ok (pre, digitsToNat run, run.length)
    ∧ parseSeriesStart (pre ++ run ++ [Char.ofNat 10])
        = .ok (pre, digitsToNat run, run.length)
    ∧ (∀ i, seriesValue pre (digitsToNat run) run.length i
        = pre ++ zfill run.length (natToDec (digitsToNat run + i)))
    ∧ (∀ i, digitsToNat (zfill run.length (natToDec (digitsToNat run + i)))
        = digitsToNat run + i)
    ∧ (∀ i, (seriesValue pre (digitsToNat run) run.length i).length
        = pre.length + max run.length (natToDec (digitsToNat run + i)).length)
    ∧ (∀ w t, w ≤ List.length t → zfill w t = t)
    ∧ (∀ s, (s = [] ∨ ∃ p c, s = p ++ [c] ∧ pyIsDigit c = false ∧ c ≠ Char.ofNat 10) →
        parseSeriesStart s = .error "Series must end with a numeric part")
    ∧ (∀ s, (s = [] ∨ ∃ p c, s = p ++ [c] ∧ pyIsDigit c = false) →
        parseSeriesStart (s ++ [Char.ofNat 10])
          = .error "Series must end with a numeric part") := by
  refine ⟨parse_of_split pre run hrun hdig hpre,
    parse_of_split_newline pre run hrun hdig hpre,
    fun i => rfl, fun i => ?_, fun i => ?_,
    zfill_of_le, parse_no_run, parse_no_run_newline⟩
  · rw [digitsToNat_zfill, digitsToNat_natToDec]
  · simp [seriesValue, zfill_length]

/-- C2 witness: `"AB 099"` parses to prefix `"AB "`, base 99, width 3 — with
or without a trailing newline — and `"AB"` is the fatal error. -/
theorem series_generator_spec_witness :
    parseSeriesStart ['A', 'B', ' ', '0', '9', '9']
      = .ok (['A', 'B', ' '], 99, 3)
    ∧ parseSeriesStart ['A', 'B', ' ', '0', '9', '9', Char.ofNat 10]
      = .ok (['A', 'B', ' '], 99, 3)
    ∧ parseSeriesStart ['A', 'B'] = .error "Series must end with a numeric part" := by
  have h := series_generator_spec ['A', 'B', ' '] ['0', '9', '9']
    (by decide) (by decide) (Or.inr ⟨['A', 'B'], ' ', rfl, by decide⟩)
  exact ⟨h.1, h.2.1,
    h.2.2.2.2.2.2.1 ['A', 'B'] (Or.inr ⟨['A'], 'B', rfl, by decide, by decide⟩)⟩

/-! ### Raster layout lemmas (C3) -/

theorem processSlots_length (count : Nat) (slots : List (Nat × Nat)) (k : Nat) :
    (processSlots count slots k).length = slots.length := by
  induction slots generalizing k with
  | nil => rfl
  | cons s rest ih =>
    by_cases h : count ≤ k <;> simp [processSlots, h, ih]

theorem processSlots_cons_ge (count : Nat) (s : Nat × Nat) (rest : List (Nat × Nat))
    (k : Nat) (hk : count ≤ k) :
    processSlots count (s :: rest) k = (s, none) :: processSlots count rest k := by
  simp [processSlots, hk]

theorem processSlots_cons_lt (count : Nat) (s : Nat × Nat) (rest : List (Nat × Nat))
    (k : Nat) (hk : k < count) :
    processSlots count (s :: rest) k
      = (s, some k) :: processSlots count rest (k + 1) := by
  simp [processSlots, Nat.not_le.mpr hk]

theorem processSlots_getElem (count : Nat) (slots : List (Nat × Nat)) (k i : Nat) :
    (processSlots count slots k)[i]?
      = slots[i]?.map (fun s => (s, if k + i < count then some (k + i) else none)) := by
  induction slots generalizing k i with
  | nil => simp [processSlots]
  | cons s rest ih =>
    by_cases hk : count ≤ k
    · rw [processSlots_cons_ge count s rest k hk]
      cases i with
      | zero => simp [show ¬ (k < count) by omega]
      | succ j =>
        simp only [List.getElem?_cons_succ]
        rw [ih k j]
        have h : (if k + j < count then some (k + j) else none)
            = (if k + (j + 1) < count then some (k + (j + 1)) else none) := by
          rw [if_neg (by omega), if_neg (by omega)]
        rw [h]
    · rw [processSlots_cons_lt count s rest k (by omega)]
      cases i with
      | zero => simp [show k < count by omega]
      | succ j =>
        simp only [List.getElem?_cons_succ]
        rw [ih (k + 1) j]
        have h : k + 1 + j = k + (j + 1) := by omega
        rw [h]

theorem slotOrder_eq_map (count : Nat) :
    slotOrder count
      = (List.range (totalPages count * OBJECTS_PER_PAGE)).map
          (fun g => (g / OBJECTS_PER_PAGE, g % OBJECTS_PER_PAGE)) := by
  unfold slotOrder
  generalize totalPages count = n
  induction n with
  | zero => simp
  | succ m ih =>
    rw [List.range_succ, List.flatMap_append, ih]
    have h : (m + 1) * OBJECTS_PER_PAGE = m * OBJECTS_PER_PAGE + OBJECTS_PER_PAGE := by ring
    rw [h, List.range_add, List.map_append]
    congr 1
    simp only [List.flatMap_cons, List.flatMap_nil, List.append_nil, List.map_map]
    show List.map (fun s => (m, s)) (List.range OBJECTS_PER_PAGE)
      = List.map (fun x => ((m * OBJECTS_PER_PAGE + x) / OBJECTS_PER_PAGE,
          (m * OBJECTS_PER_PAGE + x) % OBJECTS_PER_PAGE)) (List.range OBJECTS_PER_PAGE)
    apply List.map_congr_left
    intro x hx
    simp only [List.mem_range] at hx
    have h1 : (m * OBJECTS_PER_PAGE + x) / OBJECTS_PER_PAGE = m := by
      unfold OBJECTS_PER_PAGE at hx ⊢
      omega
    have h2 : (m * OBJECTS_PER_PAGE + x) % OBJECTS_PER_PAGE = x := by
      unfold OBJECTS_PER_PAGE at hx ⊢
      omega
    rw [h1, h2]

/-- C3: for every `count > 0`, the main loop renders `ceil(count/4)` pages,
visits slots in fixed raster order (page ascending, then slot ascending: the
`g`-th visit is page `g/4`, slot `g%4`), fills the `g`-th visited slot with
the `g`-th serial exactly when `g < count`, and leaves every later slot of
the last page blank. -/
theorem raster_layout_spec (count : Nat) (_hc : 0 < count) : rasterSpec count := by
  have hlen : (renderTrace count).length = totalPages count * OBJECTS_PER_PAGE := by
    unfold renderTrace
    rw [processSlots_length, slotOrder_eq_map]
    simp
  refine ⟨?_, ?_, hlen, ?_⟩
  · unfold totalPages OBJECTS_PER_PAGE
    omega
  · unfold totalPages OBJECTS_PER_PAGE
    omega
  · intro g
    unfold renderTrace
    rw [processSlots_getElem, slotOrder_eq_map, List.getElem?_map]
    by_cases hg : g < totalPages count * OBJECTS_PER_PAGE
    · rw [List.getElem?_range hg]
      simp [hg]
    · rw [List.getElem?_eq_none (by simpa using Nat.le_of_not_lt hg)]
      simp [hg]

/-- C3 witness: `count = 7` gives 2 pages; slot 6 (page 1, slot 2) carries
serial 6 and slot 7 (the last slot of page 2) is blank. -/
theorem raster_layout_spec_witness : 0 < 7 ∧ rasterSpec 7 :=
  ⟨by decide, raster_layout_spec 7 (by decide)⟩

/-! ### exact_mm zero-offset placement (C1) -/

/-- C1: evaluating the `exact_mm` horizontal placement at the failing input —
A4 page (210 mm), object 50 mm wide, `x_mm = 0`, `alignment = "right"` — the
code places the object's origin at `page_w − object_w` (right-aligned to the
page), not at the slot's left edge (0), even though the code's own comment
says "x_mm = 0 is absolute, alignment must not interfere"; with any other
alignment the same input does land on the slot's left edge. -/
theorem exact_mm_zero_offset_right_alignment_bug :
    objectXPtExact ⟨some 0, none, some "right"⟩ 0 (mm_to_pt 210) (mm_to_pt 210) (mm_to_pt 50)
      = mm_to_pt 210 - mm_to_pt 50
    ∧ objectXPtExact ⟨some 0, none, some "right"⟩ 0 (mm_to_pt 210) (mm_to_pt 210) (mm_to_pt 50)
      ≠ 0
    ∧ objectXPtExact ⟨some 0, none, some "center"⟩ 0 (mm_to_pt 210) (mm_to_pt 210) (mm_to_pt 50)
      = 0
    ∧ objectXPtExact ⟨some 0, none, some "left"⟩ 0 (mm_to_pt 210) (mm_to_pt 210) (mm_to_pt 50)
      = 0 := by
  have hr : pyLower (pyStrip "right") = "right" := by decide
  have hc : pyLower (pyStrip "center") = "center" := by decide
  have hl : pyLower (pyStrip "left") = "left" := by decide
  refine ⟨?_, ?_, ?_, ?_⟩
  · simp [objectXPtExact, hr]
  · simp [objectXPtExact, hr]
    norm_num [mm_to_pt, POINTS_PER_MM]
  · simp [objectXPtExact, hc]
  · simp [objectXPtExact, hl]

/-! ### Render-mode normalization (C5) -/

/-- C5 counterexample: the unrecognized non-empty flag value `"custom_mode"`
is not normalized to either `"exact_mm"` or `"legacy"` by `render_job` — it
passes through verbatim. -/
theorem render_mode_normalization_counterexample :
    ¬ (normalizeRenderMode (some "custom_mode") = "exact_mm"
       ∨ normalizeRenderMode (some "custom_mode") = "legacy") := by
  decide

/-- C5 amended: `render_job` maps the four recognized external mode names and
the blank flag to `"exact_mm"`, and passes any other value through trimmed
but otherwise unchanged; it is only inside `write_final_pdf` that the mode
string is re-read with blank defaulting to the string `"legacy"`, and the
`exact_mm` geometry is selected exactly when the stored mode trims to
`"exact_mm"` — every other value takes the legacy path. -/
theorem render_mode_normalization_amended :
    (∀ raw : Option String,
      (pyStrip (raw.getD "") ∈ ["preview", "print_authoritative",
          "deterministic_outlined", "deterministic_outlined_4up"]
        ∨ pyStrip (raw.getD "") = "") → normalizeRenderMode raw = "exact_mm")
    ∧ (∀ raw : Option String,
        pyStrip (raw.getD "") ∉ ["preview", "print_authoritative",
          "deterministic_outlined", "deterministic_outlined_4up"] →
        pyStrip (raw.getD "") ≠ "" →
        normalizeRenderMode raw = pyStrip (raw.getD ""))
    ∧ (∀ m : String, writerMode m = "exact_mm" ↔ pyStrip m = "exact_mm")
    ∧ (∀ m : String, writerMode m = "legacy" ↔ (pyStrip m = "" ∨ pyStrip m = "legacy")) := by
  refine ⟨?_, ?_, ?_, ?_⟩
  · intro raw h
    simp only [List.mem_cons, List.not_mem_nil, or_false] at h
    unfold normalizeRenderMode
    rcases h with (h | h | h | h) | h <;> simp [h]
  · intro raw h1 h2
    simp only [List.mem_cons, List.not_mem_nil, or_false, not_or] at h1
    obtain ⟨n1, n2, n3, n4⟩ := h1
    unfold normalizeRenderMode
    simp [n1, n2, n3, n4, h2]
  · intro m
    unfold writerMode
    by_cases h : pyStrip m = "" <;> simp [h]
  · intro m
    unfold writerMode
    by_cases h : pyStrip m = "" <;> simp [h]

/-- C5 witness: a recognized mode and the blank flag resolve to `"exact_mm"`;
the unrecognized flag `"my_mode"` passes through; `write_final_pdf` treats it
via the legacy branch (its mode test fails) while the literal `"exact_mm"`
passes it. -/
theorem render_mode_normalization_amended_witness :
    normalizeRenderMode (some "preview") = "exact_mm"
    ∧ normalizeRenderMode none = "exact_mm"
    ∧ normalizeRenderMode (some "my_mode") = "my_mode"
    ∧ ¬ writerMode "my_mode" = "exact_mm"
    ∧ writerMode "exact_mm" = "exact_mm" := by
  refine ⟨render_mode_normalization_amended.1 (some "preview") (by decide),
    render_mode_normalization_amended.1 none (by decide),
    render_mode_normalization_amended.2.1 (some "my_mode") (by decide) (by decide),
    fun h => ?_,
    (render_mode_normalization_amended.2.2.1 "exact_mm").mpr (by decide)⟩
  have := (render_mode_normalization_amended.2.2.1 "my_mode").mp h
  exact absurd this (by decide)

/-! ### Per-letter font sizes (C6) -/

/-- C6 counterexample: with `per_letter_font_size_mm = [-1, 7]` and
`font_size_mm = 5`, the code gives glyph 0 the size 7 (the cleaned, compacted
list is `[7]`), whereas the claim says a non-positive entry at index 0 falls
back to `font_size_mm = 5` for that glyph. -/
theorem per_letter_size_counterexample :
    glyphSizeMm (some [RawSize.num (-1), RawSize.num 7]) 5 0 = 7
    ∧ glyphSizeMmSpecClaim (some [RawSize.num (-1), RawSize.num 7]) 5 0 = 5
    ∧ glyphSizeMm (some [RawSize.num (-1), RawSize.num 7]) 5 0
      ≠ glyphSizeMmSpecClaim (some [RawSize.num (-1), RawSize.num 7]) 5 0 := by
  refine ⟨?_, ?_, ?_⟩ <;> decide

theorem cleanPerLetter_sublist (raw : List RawSize) :
    ((cleanPerLetter raw).map RawSize.num).Sublist raw := by
  induction raw with
  | nil => simp [cleanPerLetter]
  | cons e rest ih =>
    cases e with
    | num q =>
      by_cases hq : 0 < q
      · simpa [cleanPerLetter, hq] using ih.cons₂ (RawSize.num q)
      · simpa [cleanPerLetter, hq] using ih.cons (RawSize.num q)
    | nonNum => simpa [cleanPerLetter] using ih.cons RawSize.nonNum

theorem cleanPerLetter_pos (raw : List RawSize) : ∀ q ∈ cleanPerLetter raw, 0 < q := by
  intro q hq
  rcases List.mem_filterMap.mp hq with ⟨a, _, ha⟩
  cases a with
  | num p =>
    by_cases hp : 0 < p
    · simp only [hp, if_pos] at ha
      cases ha
      exact hp
    · simp [hp] at ha
  | nonNum => simp at ha

/-- C6 amended: the raw `per_letter_font_size_mm` list is first cleaned —
entries `float` rejects and non-positive entries are dropped, compacting the
survivors in order (the cleaned entries, re-tagged, form a sublist of the raw
list) — and the `i`-th glyph then takes `cleaned[i]` (necessarily positive)
when `i < len(cleaned)`, else `font_size_mm`; glyph indices are matched
against the compacted list, not the raw one. -/
theorem per_letter_size_amended (raw : List RawSize) (fontSizeMm : ℚ) (i : Nat) :
    ((cleanPerLetter raw).map RawSize.num).Sublist raw
    ∧ (∀ q ∈ cleanPerLetter raw, 0 < q)
    ∧ (∀ h : i < (cleanPerLetter raw).length,
        glyphSizeMm (some raw) fontSizeMm i = (cleanPerLetter raw).get ⟨i, h⟩
        ∧ 0 < glyphSizeMm (some raw) fontSizeMm i)
    ∧ ((cleanPerLetter raw).length ≤ i → glyphSizeMm (some raw) fontSizeMm i = fontSizeMm)
    ∧ glyphSizeMm none fontSizeMm i = fontSizeMm := by
  refine ⟨cleanPerLetter_sublist raw, cleanPerLetter_pos raw, ?_, ?_, rfl⟩
  · intro h
    have he : glyphSizeMm (some raw) fontSizeMm i = (cleanPerLetter raw).get ⟨i, h⟩ := by
      simp [glyphSizeMm, h]
    exact ⟨he, he ▸ cleanPerLetter_pos raw _ (List.get_mem _ _ _)⟩
  · intro h
    simp [glyphSizeMm, Nat.not_lt.mpr h]

/-- C6 amended witness: at the counterexample input the selected size is the
(positive) compacted entry, and a cleaned-empty list falls back. -/
theorem per_letter_size_amended_witness :
    0 < glyphSizeMm (some [RawSize.num (-1), RawSize.num 7]) 5 0
    ∧ glyphSizeMm (some [RawSize.num (-1)]) 5 0 = 5 :=
  ⟨((per_letter_size_amended [RawSize.num (-1), RawSize.num 7] 5 0).2.2.1 (by decide)).2,
   (per_letter_size_amended [RawSize.num (-1)] 5 0).2.2.2.1 (by decide)⟩

/-! ### Font resolution (C8) -/

/-- C8: `resolve_font_family` is a total function of the renderer state and
the request (its only exception-capable call, `registerFont`, sits inside a
`try/except` modelled by `registerOk`); a blank request resolves to
`("Helvetica", "pdf-core", False)`, and so does any request matching no
registered renderer font, no core font, and no discovered registry entry. -/
theorem resolve_font_family_fallback (registered : List String)
    (registry : List RegistryEntry) (registerOk : RegistryEntry → Bool)
    (req : String) :
    (pyStrip req = "" → resolveFontFamily registered registry registerOk req
        = ("Helvetica", "pdf-core", false))
    ∧ (pyStrip req ∉ registered → pyStrip req ∉ PDF_CORE_FONTS →
       registry.find? (fun f => pyLower f.family = pyLower (pyStrip req)) = none →
       resolveFontFamily registered registry registerOk req
        = ("Helvetica", "pdf-core", false)) := by
  constructor
  · intro h
    simp [resolveFontFamily, h]
  · intro h1 h2 h3
    by_cases he : pyStrip req = ""
    · simp [resolveFontFamily, he]
    · simp [resolveFontFamily, he, h1, h2, h3]

/-- C8 witness: `"NoSuchFont"` against an empty renderer state falls back to
Helvetica, and so does a whitespace-only request. -/
theorem resolve_font_family_fallback_witness :
    resolveFontFamily [] [] (fun _ => true) "NoSuchFont"
      = ("Helvetica", "pdf-core", false)
    ∧ resolveFontFamily [] [] (fun _ => true) "   "
      = ("Helvetica", "pdf-core", false) :=
  ⟨(resolve_font_family_fallback [] [] (fun _ => true) "NoSuchFont").2
      (by decide) (by decide) rfl,
   (resolve_font_family_fallback [] [] (fun _ => true) "   ").1 (by decide)⟩

/-! ### Clip discipline (C4) -/

theorem drawsWithClipsAux_bg (mode : String) (slotRect objRect : Rect)
    (rest : List CanvasOp) (cur : List Rect) (stack : List (List Rect)) :
    drawsWithClipsAux (bgOps mode slotRect objRect ++ rest) cur stack
      = (Actor.background, (if mode = "exact_mm" then slotRect else objRect) :: cur)
          :: drawsWithClipsAux rest cur stack := by
  by_cases hm : mode = "exact_mm" <;> simp [bgOps, hm, drawsWithClipsAux]

theorem drawsWithClipsAux_overlay (ov : OverlayKind) (rest : List CanvasOp)
    (cur : List Rect) (stack : List (List Rect)) :
    drawsWithClipsAux (overlayOps ov ++ rest) cur stack
      = (if overlayEmits ov then [(Actor.overlay, cur)] else [])
          ++ drawsWithClipsAux rest cur stack := by
  cases ov with
  | svgRef scale rot =>
    by_cases hs : scale ≤ 0
    · simp [overlayOps, overlayEmits, hs, not_lt.mpr hs]
    · cases rot <;>
        simp [overlayOps, overlayEmits, hs, lt_of_not_le hs, drawsWithClipsAux]
  | dataUrl rot svgMime =>
    cases rot <;> cases svgMime <;>
      simp [overlayOps, overlayEmits, drawsWithClipsAux]

theorem drawsWithClipsAux_overlays (ovs : List OverlayKind) (rest : List CanvasOp)
    (cur : List Rect) (stack : List (List Rect)) :
    drawsWithClipsAux (ovs.flatMap overlayOps ++ rest) cur stack
      = (ovs.filter overlayEmits).map (fun _ => (Actor.overlay, cur))
          ++ drawsWithClipsAux rest cur stack := by
  induction ovs with
  | nil => simp
  | cons ov ovs ih =>
    rw [List.flatMap_cons, List.append_assoc, drawsWithClipsAux_overlay, ih]
    by_cases he : overlayEmits ov <;> simp [he]

theorem drawsWithClipsAux_series (rot : Bool) (cur : List Rect)
    (stack : List (List Rect)) :
    drawsWithClipsAux (seriesOps rot) cur stack = [(Actor.seriesText, cur)] := by
  cases rot <;> simp [seriesOps, drawsWithClipsAux]

/-- C4 counterexample: in `exact_mm` mode with one image overlay, the slot
trace draws the overlay with an empty active clip set — the slot clip
established for the background is not in force (the `restoreState` at
`pdf_writer.py:523` precedes the overlay loop at `pdf_writer.py:526`). -/
theorem overlay_clip_counterexample :
    ¬ overlaysInsideClip
        (slotOps "exact_mm" (0, 0, 10, 10) (1, 1, 2, 2)
          [OverlayKind.dataUrl false false] false)
        (0, 0, 10, 10) := by
  intro h
  have hmem := h (Actor.overlay, []) (by decide) rfl
  exact absurd hmem (by decide)

/-- C4 amended: in every slot trace — either mode, any overlay list, any
series rotation — only the background form is drawn inside the step-3 clip
(the slot rect in `exact_mm`, the object rect in `legacy`); every overlay
draw call and the serial-text draw call execute after that clip is restored,
with no clip active at all. -/
theorem slot_clip_discipline (mode : String) (slotRect objRect : Rect)
    (overlays : List OverlayKind) (seriesRot : Bool) :
    drawsWithClips (slotOps mode slotRect objRect overlays seriesRot)
      = (Actor.background, [if mode = "exact_mm" then slotRect else objRect])
          :: ((overlays.filter overlayEmits).map (fun _ => (Actor.overlay, []))
              ++ [(Actor.seriesText, [])]) := by
  unfold drawsWithClips slotOps
  rw [List.append_assoc, drawsWithClipsAux_bg, drawsWithClipsAux_overlays,
    drawsWithClipsAux_series]

/-! ### Glyph outline engine (C9) -/

theorem foldl_processChar_empty_outline (font : GlyphFont)
    (hf : ∀ g, font.outline g = []) (scale : ℚ) :
    ∀ (text : List Char) (st : OutlineState),
      (text.foldl (processChar font scale) st).ops = st.ops
      ∧ (text.foldl (processChar font scale) st).bbox = st.bbox
      ∧ (text.foldl (processChar font scale) st).advances
          = st.advances ++ text.map
              (fun ch => font.advance ((font.cmap ch).getD ".notdef") * scale) := by
  intro text
  induction text with
  | nil => simp
  | cons ch rest ih =>
    intro st
    have hstep : processChar font scale st ch
        = { ops := st.ops
            bbox := st.bbox
            advances := st.advances
              ++ [font.advance ((font.cmap ch).getD ".notdef") * scale]
            cursor := (match st.prev with
              | some pg => st.cursor + font.kern pg ((font.cmap ch).getD ".notdef")
              | none => st.cursor) + font.advance ((font.cmap ch).getD ".notdef")
            prev := some ((font.cmap ch).getD ".notdef") } := by
      simp only [processChar, hf, List.foldl_nil]
    rw [List.foldl_cons, hstep]
    obtain ⟨h1, h2, h3⟩ := ih _
    refine ⟨by rw [h1], by rw [h2], ?_⟩
    rw [h3]
    simp

/-- C9: the outline engine (run at any anchor, with any font whose
units-per-em is positive) returns the empty operation list, the all-zero
bounding box and no advances on the empty string; at
`units_per_em = 1000, font_size_pt = 12` the point scale factor applied to
every outline coordinate is exactly `0.012`, the whole computation being the
core loop run at that scale; and a string none of whose glyphs produce path
operations also yields the empty operation list and the zero bounding box
(while still accumulating the scaled advances). -/
theorem outline_engine_spec (font : GlyphFont) (text : List Char)
    (fontSizePt xPt yPt : ℚ) (h : 0 < font.unitsPerEm) :
    outlineTextOpsPtWithMetrics font [] fontSizePt xPt yPt = .ok ([], zeroBBox, [])
    ∧ (font.unitsPerEm = 1000 → fontSizePt = 12 →
        outlineScale font fontSizePt = (0.012 : ℚ)
        ∧ outlineTextOpsPtWithMetrics font text fontSizePt xPt yPt
            = .ok (outlineCore font (0.012 : ℚ) text xPt yPt))
    ∧ ((∀ g, font.outline g = []) →
        outlineTextOpsPtWithMetrics font text fontSizePt xPt yPt
          = .ok ([], zeroBBox,
              text.map (fun ch =>
                font.advance ((font.cmap ch).getD ".notdef")
                  * outlineScale font fontSizePt))) := by
  have hne := not_le.mpr h
  refine ⟨?_, ?_, ?_⟩
  · rw [outlineTextOpsPtWithMetrics, if_neg hne]
    rfl
  · intro h1000 h12
    have hs : outlineScale font fontSizePt = (0.012 : ℚ) := by
      rw [outlineScale, h1000, h12]
      norm_num
    refine ⟨hs, ?_⟩
    rw [outlineTextOpsPtWithMetrics, if_neg hne, hs]
  · intro hf
    rw [outlineTextOpsPtWithMetrics, if_neg hne]
    obtain ⟨h1, h2, h3⟩ :=
      foldl_processChar_empty_outline font hf (outlineScale font fontSizePt) text
        ⟨[], none, [], 0, none⟩
    simp [outlineCore, h2, h3]

/-- C9 witness: a concrete font (units-per-em 1000, empty cmap and outlines,
advance 500) run at size 12: the empty string gives the empty result, the
scale factor is 0.012, and the single-character string `"A"` (whose glyph has
no outline) gives the empty result with one scaled advance. -/
theorem outline_engine_spec_witness :
    (0 : ℚ) < 1000
    ∧ outlineTextOpsPtWithMetrics
        ⟨1000, fun _ => none, fun _ => [], fun _ => 500, fun _ _ => 0⟩ [] 12 3 4
        = .ok ([], zeroBBox, [])
    ∧ outlineScale ⟨1000, fun _ => none, fun _ => [], fun _ => 500, fun _ _ => 0⟩ 12
        = (0.012 : ℚ) := by
  have h := outline_engine_spec
    ⟨1000, fun _ => none, fun _ => [], fun _ => 500, fun _ _ => 0⟩ ['A'] 12 3 4
    (by norm_num)
  exact ⟨by norm_num, h.1, (h.2.1 rfl rfl).1⟩

/-! ### Template id determinism (C7, C10) -/

theorem sortPairs_eq_of_perm (l₁ l₂ : List (String × String))
    (hp : l₁.Perm l₂) (hn : (l₁.map Prod.fst).Nodup) :
    sortPairs l₁ = sortPairs l₂ := by
  have hp1 : (sortPairs l₁).Perm l₁ := List.perm_insertionSort _ _
  have hp2 : (sortPairs l₂).Perm l₂ := List.perm_insertionSort _ _
  have hperm : (sortPairs l₁).Perm (sortPairs l₂) := hp1.trans (hp.trans hp2.symm)
  have hs1 : (sortPairs l₁).Sorted keyLe := List.sorted_insertionSort _ _
  have hs2 : (sortPairs l₂).Sorted keyLe := List.sorted_insertionSort _ _
  have hn1 : ((sortPairs l₁).map Prod.fst).Nodup := (hp1.map Prod.fst).nodup_iff.mpr hn
  have hn2 : ((sortPairs l₂).map Prod.fst).Nodup :=
    (hp2.map Prod.fst).nodup_iff.mpr ((hp.map Prod.fst).nodup_iff.mp hn)
  have hst1 : (sortPairs l₁).Sorted keyLt := by
    have hne := List.pairwise_map.mp hn1
    exact (hs1.and hne).imp (fun h => lt_of_le_of_ne h.1 h.2)
  have hst2 : (sortPairs l₂).Sorted keyLt := by
    have hne := List.pairwise_map.mp hn2
    exact (hs2.and hne).imp (fun h => lt_of_le_of_ne h.1 h.2)
  exact List.eq_of_perm_of_sorted hperm hst1 hst2

theorem serializeFields_eq_map (fs : List (String × Json)) :
    serializeFields fs = fs.map (fun kv => (kv.1, serializeJson kv.2)) := by
  induction fs with
  | nil => rfl
  | cons kv rest ih =>
    cases kv
    simp [serializeFields, ih]

theorem sorted_serializeFields_eq (fs₁ fs₂ : List (String × Json))
    (hp : fs₁.Perm fs₂) (hn : (fs₁.map Prod.fst).Nodup) :
    sortPairs (serializeFields fs₁) = sortPairs (serializeFields fs₂) := by
  apply sortPairs_eq_of_perm
  · rw [serializeFields_eq_map, serializeFields_eq_map]
    exact hp.map _
  · rw [serializeFields_eq_map, List.map_map]
    exact hn

/-- C7: `compute_template_id` is a pure function of the payload's logical
content: reordering the keys of the `object_mm` or `series` dict (any
permutation with no duplicate keys, all values equal) leaves the canonical
serialization — and hence the digest, for every hash function including
SHA-256 — unchanged; repeated calls on equal payloads trivially agree since
the computation is a function of its arguments alone. -/
theorem template_id_key_order_invariant (hashFn : String → String) (svgHash : String)
    (om₁ om₂ se₁ se₂ : List (String × Json))
    (cf ov : Option (List Json)) (mode : String)
    (hom : om₁.Perm om₂) (homn : (om₁.map Prod.fst).Nodup)
    (hse : se₁.Perm se₂) (hsen : (se₁.map Prod.fst).Nodup) :
    computeTemplateId hashFn svgHash om₁ se₁ cf ov mode
      = computeTemplateId hashFn svgHash om₂ se₂ cf ov mode := by
  unfold computeTemplateId
  simp only [serializeJson, serializeFields]
  rw [sorted_serializeFields_eq om₁ om₂ hom homn,
    sorted_serializeFields_eq se₁ se₂ hse hsen]

/-- C7 witness: swapping the `w`/`h` keys of `object_mm` leaves the template
id unchanged. -/
theorem template_id_key_order_invariant_witness :
    computeTemplateId id "bg" [("w", Json.num 50), ("h", Json.num 30)]
        [("start", Json.str "AB007")] none none "exact_mm"
      = computeTemplateId id "bg" [("h", Json.num 30), ("w", Json.num 50)]
        [("start", Json.str "AB007")] none none "exact_mm" :=
  template_id_key_order_invariant id "bg" _ _ _ _ none none "exact_mm"
    (List.Perm.swap ("h", Json.num 30) ("w", Json.num 50) [])
    (by decide) (List.Perm.refl _) (by decide)

/-- C10: `compute_template_id` maps an omitted (`None`) `custom_fonts`
argument and an empty list to the same payload (`custom_fonts or []`), and
likewise for `overlays`, so the resulting template ids coincide for every
choice of the other fields and of the hash function. -/
theorem template_id_none_eq_empty (hashFn : String → String) (svgHash : String)
    (om se : List (String × Json)) (cf ov : Option (List Json)) (mode : String) :
    (computeTemplateId hashFn svgHash om se none ov mode
      = computeTemplateId hashFn svgHash om se (some []) ov mode)
    ∧ (computeTemplateId hashFn svgHash om se cf none mode
      = computeTemplateId hashFn svgHash om se cf (some []) mode) :=
  ⟨rfl, rfl⟩

end PrintEngine
